import Mathlib

/-!
Shallow embedding of the descriptor layer of `src/ext/ed.cpp` (eventmachine's
reactor core): close-state machine, outbound page buffering,
partial-write bookkeeping, proxy byte-limit dispatch, backpressure,
heartbeat timeouts and socket close ordering, together with theorems
checking the specification's statements about that code.
-/

namespace EventMachine

/-- One queued outbound page (`ed.cpp` class `OutboundPage`): a buffer of
`length` bytes of which the first `offset` have already been consumed. -/
structure OutboundPage where
  length : Nat
  offset : Nat
  deriving DecidableEq

/-- Bytes of a page not yet sent: `Length - Offset` as used by
`ConnectionDescriptor::_WriteOutboundData` when building the iovec. -/
def OutboundPage.remaining (p : OutboundPage) : Nat := p.length - p.offset

/-- Sum of the unconsumed byte counts of a list of pages. -/
def pagesSum (ps : List OutboundPage) : Nat := (ps.map OutboundPage.remaining).sum

/-- State of an `EventableDescriptor` / `ConnectionDescriptor` as far as the
claims need it: socket handle (`none` models `INVALID_SOCKET`), the
`bAttached` flag, the two close flags, the outbound page queue with its
tracked byte count `OutboundDataSize` (a signed `int` in the source),
connect-pending flag and the timer fields.  Defaults mirror the
constructor initializers of `EventableDescriptor::EventableDescriptor` and
`ConnectionDescriptor::ConnectionDescriptor`. -/
structure Conn where
  socket : Option Nat := some 3
  attached : Bool := false
  closeNow : Bool := false
  closeAfterWriting : Bool := false
  pages : List OutboundPage := []
  size : Int := 0
  connectPending : Bool := false
  createdAt : Nat := 0
  lastActivity : Nat := 0
  pendingConnectTimeout : Nat := 20000000
  inactivityTimeout : Nat := 0
  unbindReasonCode : Nat := 0
  deriving DecidableEq

/-- Models `EventableDescriptor::IsCloseScheduled`:
`bCloseNow || bCloseAfterWriting`. -/
def isCloseScheduled (s : Conn) : Bool := s.closeNow || s.closeAfterWriting

/-- Models `EventableDescriptor::ScheduleClose`: if a close is already
scheduled, a non-after-writing request upgrades it to an immediate close and
nothing else changes; otherwise the requested flag is set. -/
def scheduleClose (s : Conn) (afterWriting : Bool) : Conn :=
  if isCloseScheduled s then
    if afterWriting then s else { s with closeNow := true }
  else if afterWriting then { s with closeAfterWriting := true }
  else { s with closeNow := true }

/-- Models `EventableDescriptor::ShouldDelete`:
`(MySocket == INVALID_SOCKET) || bCloseNow ||
(bCloseAfterWriting && (GetOutboundDataSize() <= 0))`. -/
def shouldDelete (s : Conn) : Bool :=
  s.socket.isNone || s.closeNow || (s.closeAfterWriting && decide (s.size ≤ 0))

/-- Externally visible effects of `EventableDescriptor::Close`: a
`Deregister` call on the reactor, and the release of an OS handle. -/
inductive CloseEvent where
  | deregister
  | osClose (handle : Nat)
  deriving DecidableEq

/-- Models `EventableDescriptor::Close`: if the socket is still valid, first
deregister from the reactor, then shut down and close the OS handle — but
only for handles above 2 and only when not attached — and finally mark the
socket invalid.  Returns the new state and the emitted events in order. -/
def close (s : Conn) : Conn × List CloseEvent :=
  match s.socket with
  | none => (s, [])
  | some h =>
      ({ s with socket := none },
        if 2 < h ∧ s.attached = false then
          [CloseEvent.deregister, CloseEvent.osClose h]
        else [CloseEvent.deregister])

/-- Models `ConnectionDescriptor::_SendRawOutboundData`: refuse (returning 0
and changing nothing) when a close is scheduled or the length is zero;
otherwise append a fresh page and grow `OutboundDataSize`. -/
def sendRawOutboundData (s : Conn) (len : Nat) : Int × Conn :=
  if isCloseScheduled s then (0, s)
  else if len = 0 then (0, s)
  else (len, { s with pages := s.pages ++ [⟨len, 0⟩], size := s.size + len })

/-- Number of pages gathered into the iovec by
`ConnectionDescriptor::_WriteOutboundData`: at most 16. -/
def iovCount (s : Conn) : Nat := min s.pages.length 16

/-- Total bytes handed to `writev` by `_WriteOutboundData`: the sum of the
remaining bytes of the gathered pages. -/
def gatherBytes (s : Conn) : Nat := pagesSum (s.pages.take (iovCount s))

/-- The post-`writev` page-queue adjustment loop of `_WriteOutboundData`:
walk the first `fuel` pages; a page whose remaining bytes were sent in full
is popped, a partially sent page has its offset advanced and the walk
stops. -/
def consumePages : List OutboundPage → Nat → Nat → List OutboundPage
  | ps, 0, _ => ps
  | [], _ + 1, _ => []
  | p :: rest, fuel + 1, sent =>
      if p.remaining ≤ sent then consumePages rest fuel (sent - p.remaining)
      else { length := p.length, offset := p.offset + sent } :: rest

/-- Models one successful pass of
`ConnectionDescriptor::_WriteOutboundData` in which the OS accepted
`bytesWritten` bytes (an error return is `bytesWritten = 0`):
`OutboundDataSize -= bytes_written`, then the page queue is advanced. -/
def writeOutboundData (s : Conn) (bytesWritten : Nat) : Conn :=
  { s with size := s.size - bytesWritten,
           pages := consumePages s.pages (iovCount s) bytesWritten }

/-- States of the outbound machinery reachable from an empty queue by any
interleaving of sends, close scheduling, and flushes in which the OS never
reports more bytes written than were handed to `writev`. -/
inductive OutboundReachable : Conn → Prop
  | init (s : Conn) (hp : s.pages = []) (hs : s.size = 0) : OutboundReachable s
  | send {s : Conn} (len : Nat) (h : OutboundReachable s) :
      OutboundReachable (sendRawOutboundData s len).2
  | schedule {s : Conn} (aw : Bool) (h : OutboundReachable s) :
      OutboundReachable (scheduleClose s aw)
  | flush {s : Conn} (bw : Nat) (hbw : bw ≤ gatherBytes s) (h : OutboundReachable s) :
      OutboundReachable (writeOutboundData s bw)

/-- The bookkeeping invariant of the outbound queue: the tracked size equals
the sum of unconsumed page bytes, and no page is ever fully consumed while
still queued. -/
def outboundInv (s : Conn) : Prop :=
  s.size = (pagesSum s.pages : Int) ∧ ∀ p ∈ s.pages, p.offset < p.length

/-- Addition of `uint64_t` values. -/
def u64add (a b : Nat) : Nat := (a + b) % 2 ^ 64

/-- Subtraction of `uint64_t` values (two's-complement wraparound). -/
def u64sub (a b : Nat) : Nat := (a % 2 ^ 64 + (2 ^ 64 - b % 2 ^ 64)) % 2 ^ 64

/-- The `errno` code recorded by timeout-triggered closes (`ETIMEDOUT`,
value 110 on Linux). -/
def etimedout : Nat := 110

/-- Models `ConnectionDescriptor::Heartbeat` given the reactor clock
`loopTime` (`GetCurrentLoopTime()`) and `skew` (`GetTimerQuantum()`): a
pending connect whose age reaches `PendingConnectTimeout` — or, otherwise, a
configured inactivity timeout reached by the skew-compensated idle time —
records `ETIMEDOUT` and schedules an immediate close. -/
def heartbeat (s : Conn) (loopTime skew : Nat) : Conn :=
  if s.connectPending then
    if s.pendingConnectTimeout ≤ u64sub loopTime s.createdAt then
      scheduleClose { s with unbindReasonCode := etimedout } false
    else s
  else
    if s.inactivityTimeout ≠ 0 ∧
        s.inactivityTimeout ≤ u64sub (u64add skew loopTime) s.lastActivity then
      scheduleClose { s with unbindReasonCode := etimedout } false
    else s

/-- Models the value returned (and stored in `NextHeartbeat`) by
`EventableDescriptor::GetNextHeartbeat`, with `realTime` standing for
`MyEventMachine->GetRealTime()`: zero when the descriptor should be deleted;
otherwise start from `InactivityTimeout`, replace it by
`PendingConnectTimeout` while a connect is pending and that is sooner (or
the inactivity timeout is unset), and return zero if no timeout applies,
else that timeout added to the current real time. -/
def getNextHeartbeat (s : Conn) (realTime : Nat) : Nat :=
  if shouldDelete s then 0
  else
    let t :=
      if s.connectPending ∧
          (s.inactivityTimeout = 0 ∨ s.pendingConnectTimeout < s.inactivityTimeout)
      then s.pendingConnectTimeout
      else s.inactivityTimeout
    if t = 0 then 0 else u64add t realTime

/-- Modelled from the spec: the spec's wording of the heartbeat deadline —
the minimum of the time *left* on the pending-connect timeout (only while a
connect is pending, measured against the creation time) and the time *left*
on the inactivity timeout (measured against the last-activity time), zero
timeouts contributing no deadline; zero when nothing applies or the
descriptor should be deleted, else the current real time plus that minimum
remaining time.  Stated only for comparison with `getNextHeartbeat`. -/
def getNextHeartbeatSpec (s : Conn) (loopTime realTime : Nat) : Nat :=
  if shouldDelete s then 0
  else
    let remConnect : Option Nat :=
      if s.connectPending then
        some (s.pendingConnectTimeout - (loopTime - s.createdAt))
      else none
    let remInactivity : Option Nat :=
      if s.inactivityTimeout ≠ 0 then
        some (s.inactivityTimeout - (loopTime - s.lastActivity))
      else none
    match remConnect, remInactivity with
    | none, none => 0
    | some a, none => realTime + a
    | none, some b => realTime + b
    | some a, some b => realTime + min a b

/-- The proxy-source side of `EventableDescriptor`: whether a proxy target
is attached (`ProxyTarget != NULL`), the `BytesToProxy` budget and the
`ProxiedBytes` counter. -/
structure ProxySource where
  hasProxyTarget : Bool
  bytesToProxy : Nat
  proxiedBytes : Nat
  deriving DecidableEq

/-- Everything one call to `_GenericInboundDispatch` does that is visible
outside: the updated source state, the bytes handed to
`ProxyTarget->SendOutboundData`, whether `EM_PROXY_COMPLETED` fired, and the
bytes handed to the `EM_CONNECTION_READ` callback. -/
structure DispatchResult where
  state : ProxySource
  forwarded : List Nat
  completedFired : Bool
  readDispatched : List Nat
  deriving DecidableEq

/-- Models `EventableDescriptor::_GenericInboundDispatch` on one inbound
chunk `buf`.  With a target attached and a positive budget,
`min BytesToProxy size` bytes are forwarded; if that exhausts the budget the
proxy is stopped, the completion event fires and the rest of the chunk (the
source fires `EM_CONNECTION_READ` exactly when `proxied < size`; we record
the dropped prefix's complement, which is `[]` in the equal case) goes to
the read callback.  With a zero budget everything is forwarded; with no
target the chunk goes to the read callback. -/
def genericInboundDispatch (s : ProxySource) (buf : List Nat) : DispatchResult :=
  if s.hasProxyTarget = true then
    if 0 < s.bytesToProxy then
      let proxied := min s.bytesToProxy buf.length
      if s.bytesToProxy - proxied = 0 then
        ⟨⟨false, 0, s.proxiedBytes + proxied⟩, buf.take proxied, true, buf.drop proxied⟩
      else
        ⟨⟨true, s.bytesToProxy - proxied, s.proxiedBytes + proxied⟩,
          buf.take proxied, false, []⟩
    else
      ⟨⟨true, s.bytesToProxy, s.proxiedBytes + buf.length⟩, buf, false, []⟩
  else
    ⟨s, [], false, buf⟩

/-- Run `_GenericInboundDispatch` over a sequence of inbound chunks,
collecting each call's result. -/
def runDispatch : ProxySource → List (List Nat) → ProxySource × List DispatchResult
  | s, [] => (s, [])
  | s, c :: cs =>
      let r := genericInboundDispatch s c
      let rest := runDispatch r.state cs
      (rest.1, r :: rest.2)

/-- The expected pattern of `EM_PROXY_COMPLETED` events for a byte budget
`L` over chunks of the given lengths: false until the cumulative length
reaches `L`, true on the chunk that reaches it, false afterwards. -/
def completionPattern (L : Nat) : List Nat → List Bool
  | [] => []
  | n :: ns =>
      if L ≤ n then true :: ns.map (fun _ => false)
      else false :: completionPattern (L - n) ns

/-- A proxy sink (`ConnectionDescriptor`) together with the state of its
upstream source that the sink's code touches: `MaxOutboundBufSize` (the
backpressure threshold, 0 = disabled), `ProxiedFrom != NULL`, and the
source's `bPaused` flag (written through `Pause()` / `Resume()`). -/
structure ProxySink where
  conn : Conn
  maxOutboundBufSize : Nat := 0
  hasProxiedFrom : Bool := false
  sourcePaused : Bool := false
  deriving DecidableEq

/-- Models `ConnectionDescriptor::SendOutboundData` (no TLS): first the
backpressure check — if a source is attached, a threshold is configured and
the pre-queue outbound size plus the incoming length exceeds it, the source
is paused — then `_SendRawOutboundData`. -/
def sendOutboundData (s : ProxySink) (len : Nat) : Int × ProxySink :=
  let paused :=
    if s.hasProxiedFrom = true ∧ s.maxOutboundBufSize ≠ 0 ∧
        (s.maxOutboundBufSize : Int) < s.conn.size + len
    then true else s.sourcePaused
  let r := sendRawOutboundData s.conn len
  (r.1, { s with conn := r.2, sourcePaused := paused })

/-- Models one pass of `_WriteOutboundData` on a proxy sink: after the size
decrement, if a source is attached, a threshold is configured, the new
outbound size is strictly below it and the source is paused, the source is
resumed. -/
def sinkWriteOutboundData (s : ProxySink) (bw : Nat) : ProxySink :=
  let conn := writeOutboundData s.conn bw
  let paused :=
    if s.hasProxiedFrom = true ∧ s.maxOutboundBufSize ≠ 0 ∧
        conn.size < (s.maxOutboundBufSize : Int) ∧ s.sourcePaused = true
    then false else s.sourcePaused
  { s with conn := conn, sourcePaused := paused }

/-- One queued outbound datagram (`DatagramDescriptor`'s `OutboundPage`s
carry a destination address, abstracted to a `Nat` tag). -/
structure DatagramPage where
  length : Nat
  dest : Nat
  deriving DecidableEq

/-- State of a `DatagramDescriptor`: close flags, the message-structured
outbound queue with its byte count, and the transient `ReturnAddress`. -/
structure Datagram where
  closeNow : Bool := false
  closeAfterWriting : Bool := false
  pages : List DatagramPage := []
  size : Int := 0
  returnAddress : Nat := 0
  deriving DecidableEq

/-- Models `IsCloseScheduled` for a datagram descriptor. -/
def Datagram.isCloseScheduled (s : Datagram) : Bool := s.closeNow || s.closeAfterWriting

/-- Models `DatagramDescriptor::SendOutboundData`: refused (returning 0,
changing nothing) when a close is scheduled; otherwise the message — empty
datagrams included — is queued to the last-seen return address and the byte
count grows. -/
def datagramSendOutboundData (s : Datagram) (len : Nat) : Int × Datagram :=
  if s.isCloseScheduled then (0, s)
  else (len, { s with pages := s.pages ++ [⟨len, s.returnAddress⟩],
                      size := s.size + len })

/-- Size of `ConnectionDescriptor::Read`'s stack buffer:
`char readbuffer [16 * 1024 + 1]`. -/
def connReadBufferSize : Nat := 16 * 1024 + 1

/-- Size of `DatagramDescriptor::Read`'s stack buffer:
`char readbuffer [16 * 1024]`. -/
def datagramReadBufferSize : Nat := 16 * 1024

/-- Models one read iteration writing a received chunk into the read buffer:
the `r` received bytes land at the front, `readbuffer[r] = 0` is the guard
byte, and the tail of the buffer is untouched.  The chunk dispatched to the
callback is `data` (the first `r` bytes). -/
def applyReadChunk (buf data : List Nat) : List Nat :=
  data ++ 0 :: buf.drop (data.length + 1)

end EventMachine

namespace EventMachine

lemma pagesSum_cons (p : OutboundPage) (ps : List OutboundPage) :
    pagesSum (p :: ps) = p.remaining + pagesSum ps := by
  simp [pagesSum]

lemma pagesSum_append (ps qs : List OutboundPage) :
    pagesSum (ps ++ qs) = pagesSum ps + pagesSum qs := by
  simp [pagesSum]

lemma consumePages_spec (fuel : Nat) :
    ∀ (ps : List OutboundPage) (sent : Nat),
      sent ≤ pagesSum (ps.take fuel) →
      (∀ p ∈ ps, p.offset < p.length) →
      pagesSum (consumePages ps fuel sent) = pagesSum ps - sent ∧
      ∀ p ∈ consumePages ps fuel sent, p.offset < p.length := by
  induction fuel with
  | zero =>
      intro ps sent hs hpos
      simp [pagesSum] at hs
      exact ⟨by simp [consumePages, hs], by simpa [consumePages] using hpos⟩
  | succ n ih =>
      intro ps sent hs hpos
      match ps with
      | [] => simp [consumePages, pagesSum]
      | p :: rest =>
          have hrests : sent ≤ p.remaining + pagesSum (rest.take n) := by
            simpa [List.take, pagesSum_cons] using hs
          by_cases hle : p.remaining ≤ sent
          · have hrec := ih rest (sent - p.remaining)
              (by omega)
              (fun q hq => hpos q (List.mem_cons_of_mem _ hq))
            have hps : pagesSum (rest.take n) ≤ pagesSum rest := by
              simpa [pagesSum] using List.Sublist.sum_le_sum
                ((rest.take_sublist n).map OutboundPage.remaining)
                (fun a ha => Nat.zero_le a)
            constructor
            · rw [consumePages, if_pos hle, hrec.1, pagesSum_cons]
              omega
            · rw [consumePages, if_pos hle]
              exact hrec.2
          · have hsent : sent < p.remaining := Nat.lt_of_not_le hle
            have hpo : p.offset < p.length := hpos p (List.mem_cons_self p rest)
            constructor
            · rw [consumePages, if_neg hle, pagesSum_cons, pagesSum_cons]
              unfold OutboundPage.remaining at *
              simp only
              omega
            · rw [consumePages, if_neg hle]
              intro q hq
              rcases List.mem_cons.mp hq with hq | hq
              · subst hq
                unfold OutboundPage.remaining at hsent
                simp only
                omega
              · exact hpos q (List.mem_cons_of_mem _ hq)

lemma outboundInv_send (s : Conn) (len : Nat) (h : outboundInv s) :
    outboundInv (sendRawOutboundData s len).2 := by
  unfold sendRawOutboundData
  split
  · exact h
  · split
    · exact h
    · rename_i hlen
      obtain ⟨h1, h2⟩ := h
      constructor
      · have hps : pagesSum [({ length := len, offset := 0 } : OutboundPage)] = len := by
          simp [pagesSum, OutboundPage.remaining]
        show s.size + (len : Int) = ((pagesSum (s.pages ++ [⟨len, 0⟩]) : Nat) : Int)
        rw [pagesSum_append, hps, h1]
        push_cast
        ring
      · intro p hp
        rcases List.mem_append.mp hp with hp | hp
        · exact h2 p hp
        · simp at hp
          subst hp
          simpa using Nat.pos_of_ne_zero hlen

lemma outboundInv_schedule (s : Conn) (aw : Bool) (h : outboundInv s) :
    outboundInv (scheduleClose s aw) := by
  unfold scheduleClose
  obtain ⟨h1, h2⟩ := h
  split <;> [skip; split] <;> first
    | exact ⟨h1, h2⟩
    | (split <;> exact ⟨h1, h2⟩)

lemma outboundInv_flush (s : Conn) (bw : Nat) (hbw : bw ≤ gatherBytes s)
    (h : outboundInv s) : outboundInv (writeOutboundData s bw) := by
  obtain ⟨h1, h2⟩ := h
  have hc := consumePages_spec (iovCount s) s.pages bw hbw h2
  have hsum : pagesSum (s.pages.take (iovCount s)) ≤ pagesSum s.pages := by
    simpa [pagesSum] using List.Sublist.sum_le_sum
      ((s.pages.take_sublist (iovCount s)).map OutboundPage.remaining)
      (fun a ha => Nat.zero_le a)
  constructor
  · have hbws : bw ≤ pagesSum s.pages := le_trans hbw hsum
    simp only [writeOutboundData]
    rw [h1, hc.1]
    omega
  · simpa only [writeOutboundData] using hc.2

lemma outboundInv_reachable (s : Conn) (h : OutboundReachable s) : outboundInv s := by
  induction h with
  | init s hp hs => exact ⟨by simp [hs, hp, pagesSum], by simp [hp]⟩
  | send len h ih => exact outboundInv_send _ len ih
  | schedule aw h ih => exact outboundInv_schedule _ aw ih
  | flush bw hbw h ih => exact outboundInv_flush _ bw hbw ih

/-- C1: `ShouldDelete()` is true iff the socket handle is invalid, or an
immediate close is scheduled, or a close-after-writing is scheduled and the
outbound data size is zero (given that the tracked size is nonnegative, as
it is in every reachable state of the outbound machinery). -/
theorem shouldDelete_iff (s : Conn) (h : 0 ≤ s.size) :
    shouldDelete s = true ↔
      (s.socket = none ∨ s.closeNow = true ∨
        (s.closeAfterWriting = true ∧ s.size = 0)) := by
  have hz : s.size ≤ 0 ↔ s.size = 0 := by omega
  simp [shouldDelete, Option.isNone_iff_eq_none, hz]
  tauto

/-- Witness for C1: a descriptor with a valid socket, close-after-writing
scheduled and an empty outbound queue is deletable. -/
theorem shouldDelete_iff_witness :
    shouldDelete { closeAfterWriting := true } = true ↔
      (({ closeAfterWriting := true } : Conn).socket = none ∨
        ({ closeAfterWriting := true } : Conn).closeNow = true ∨
        (({ closeAfterWriting := true } : Conn).closeAfterWriting = true ∧
          ({ closeAfterWriting := true } : Conn).size = 0)) :=
  shouldDelete_iff { closeAfterWriting := true } (by decide)

/-- C2: in every state reachable by sends, close scheduling and (possibly
partial) flushes, the tracked `OutboundDataSize` equals the sum over queued
pages of `length - offset`; it is never negative, and it is zero exactly
when the page queue is empty. -/
theorem outbound_size_bookkeeping (s : Conn) (h : OutboundReachable s) :
    s.size = (pagesSum s.pages : Int) ∧ 0 ≤ s.size ∧
      (s.size = 0 ↔ s.pages = []) := by
  obtain ⟨h1, h2⟩ := outboundInv_reachable s h
  refine ⟨h1, by rw [h1]; positivity, ?_⟩
  rw [h1]
  constructor
  · intro hz
    cases hps : s.pages with
    | nil => rfl
    | cons p rest =>
        have hp := h2 p (hps ▸ List.mem_cons_self p rest)
        rw [hps, pagesSum_cons] at hz
        have hq : 0 < p.remaining := by
          unfold OutboundPage.remaining
          omega
        omega
  · intro hz
    rw [hz]
    simp [pagesSum]

/-- Witness for C2 at a concrete reachable state: queue 5 bytes, then have
the OS accept 3 of them. -/
theorem outbound_size_bookkeeping_witness :
    (writeOutboundData (sendRawOutboundData { } 5).2 3).size =
        (pagesSum (writeOutboundData (sendRawOutboundData { } 5).2 3).pages : Int) ∧
    0 ≤ (writeOutboundData (sendRawOutboundData { } 5).2 3).size ∧
    ((writeOutboundData (sendRawOutboundData { } 5).2 3).size = 0 ↔
      (writeOutboundData (sendRawOutboundData { } 5).2 3).pages = []) :=
  outbound_size_bookkeeping _
    (OutboundReachable.flush 3 (by decide)
      (OutboundReachable.send 5 (OutboundReachable.init { } rfl rfl)))

/-- C3: `ScheduleClose` is monotonic.  The first two conjuncts characterize
the new flags exactly: `bCloseNow` is set by any non-after-writing request
and never cleared, `bCloseAfterWriting` is set only from an unscheduled
state and never cleared; the remaining conjuncts spell out that neither
flag is reset, that an after-writing close escalates to immediate under a
later `ScheduleClose(false)`, and that a scheduled close stays scheduled. -/
theorem scheduleClose_monotonic (s : Conn) (aw : Bool) :
    (scheduleClose s aw).closeNow = (s.closeNow || !aw) ∧
    (scheduleClose s aw).closeAfterWriting
      = (s.closeAfterWriting || (aw && !(s.closeNow || s.closeAfterWriting))) ∧
    (s.closeNow = true → (scheduleClose s aw).closeNow = true) ∧
    (s.closeAfterWriting = true → (scheduleClose s aw).closeAfterWriting = true) ∧
    (s.closeAfterWriting = true → aw = false → (scheduleClose s aw).closeNow = true) ∧
    (isCloseScheduled s = true → isCloseScheduled (scheduleClose s aw) = true) := by
  rcases hc : s.closeNow <;> rcases hw : s.closeAfterWriting <;> rcases aw <;>
    simp [scheduleClose, isCloseScheduled, hc, hw]

/-- Witness for C3: a close scheduled after-writing, hit with
`ScheduleClose(false)`, escalates to an immediate close and keeps the
after-writing flag. -/
theorem scheduleClose_monotonic_witness :
    (scheduleClose { closeAfterWriting := true } false).closeNow = true ∧
    (scheduleClose { closeAfterWriting := true } false).closeAfterWriting = true :=
  ⟨(scheduleClose_monotonic { closeAfterWriting := true } false).2.2.2.2.1 rfl rfl,
   (scheduleClose_monotonic { closeAfterWriting := true } false).2.2.2.1 rfl⟩

/-- C8: `Close()` is idempotent — a second call emits no events and changes
nothing; when it does act it emits `Deregister` strictly before any OS
handle release, and a handle is only ever released when it is above 2. -/
theorem close_idempotent_ordered (s : Conn) :
    close (close s).1 = ((close s).1, []) ∧
    ((close s).2 = [] ↔ s.socket = none) ∧
    ((close s).2 = [] ∨ (close s).2 = [CloseEvent.deregister] ∨
      ∃ h, 2 < h ∧ (close s).2 = [CloseEvent.deregister, CloseEvent.osClose h]) := by
  rcases hs : s.socket with _ | v
  · simp [close, hs]
  · refine ⟨by simp [close, hs], by simp [close, hs]; split <;> simp, ?_⟩
    by_cases h23 : 2 < v ∧ s.attached = false
    · exact Or.inr (Or.inr ⟨v, h23.1, by simp [close, hs, h23]⟩)
    · exact Or.inr (Or.inl (by simp [close, hs, h23]))

/-- Witness for C8 at a concrete descriptor with handle 5. -/
theorem close_idempotent_ordered_witness :
    close (close ({ socket := some 5 } : Conn)).1 = ((close ({ socket := some 5 } : Conn)).1, []) ∧
    ((close ({ socket := some 5 } : Conn)).2 = [] ↔ ({ socket := some 5 } : Conn).socket = none) ∧
    ((close ({ socket := some 5 } : Conn)).2 = [] ∨
      (close ({ socket := some 5 } : Conn)).2 = [CloseEvent.deregister] ∨
      ∃ h, 2 < h ∧ (close ({ socket := some 5 } : Conn)).2
        = [CloseEvent.deregister, CloseEvent.osClose h]) :=
  close_idempotent_ordered { socket := some 5 }

lemma u64add_eq_add (a b : Nat) (h : a + b < 2 ^ 64) : u64add a b = a + b :=
  Nat.mod_eq_of_lt h

lemma u64sub_eq_sub (a b : Nat) (hb : b ≤ a) (ha : a < 2 ^ 64) : u64sub a b = a - b := by
  unfold u64sub
  have h2 : (2 : Nat) ^ 64 = 18446744073709551616 := by norm_num
  rw [h2] at ha ⊢
  omega

lemma scheduleClose_false_eq (s : Conn) :
    scheduleClose s false = { s with closeNow := true } := by
  unfold scheduleClose
  split
  · simp
  · split
    · simp_all
    · rfl

/-- C6: on a heartbeat, a pending connect whose age has reached the
pending-connect timeout — or, otherwise, a configured inactivity timeout
reached by the skew-compensated idle time — records the deadline-exceeded
reason code and schedules a close that is immediate (the after-writing flag
is untouched). -/
theorem heartbeat_timeout_close (s : Conn) (loopTime skew : Nat)
    (h64 : skew + loopTime < 2 ^ 64)
    (hc : s.createdAt ≤ loopTime)
    (ha : s.lastActivity ≤ skew + loopTime) :
    (s.connectPending = true →
      s.pendingConnectTimeout ≤ loopTime - s.createdAt →
      (heartbeat s loopTime skew).unbindReasonCode = etimedout ∧
      (heartbeat s loopTime skew).closeNow = true ∧
      (heartbeat s loopTime skew).closeAfterWriting = s.closeAfterWriting) ∧
    (s.connectPending = false →
      s.inactivityTimeout ≠ 0 →
      s.inactivityTimeout ≤ skew + loopTime - s.lastActivity →
      (heartbeat s loopTime skew).unbindReasonCode = etimedout ∧
      (heartbeat s loopTime skew).closeNow = true ∧
      (heartbeat s loopTime skew).closeAfterWriting = s.closeAfterWriting) := by
  have hsub : u64sub loopTime s.createdAt = loopTime - s.createdAt :=
    u64sub_eq_sub _ _ hc (by omega)
  have hsub2 : u64sub (u64add skew loopTime) s.lastActivity
      = skew + loopTime - s.lastActivity := by
    rw [u64add_eq_add _ _ h64]
    exact u64sub_eq_sub _ _ ha h64
  constructor
  · intro hp hto
    have heq : heartbeat s loopTime skew
        = scheduleClose { s with unbindReasonCode := etimedout } false := by
      unfold heartbeat
      rw [hp, hsub]
      simp [hto]
    rw [heq, scheduleClose_false_eq]
    exact ⟨rfl, rfl, rfl⟩
  · intro hp hit hto
    have heq : heartbeat s loopTime skew
        = scheduleClose { s with unbindReasonCode := etimedout } false := by
      unfold heartbeat
      rw [hp, hsub2]
      simp [hit, hto]
    rw [heq, scheduleClose_false_eq]
    exact ⟨rfl, rfl, rfl⟩

/-- Witness for C6: a pending connect created at loop time 0 with a 10 µs
timeout, heartbeated at loop time 30. -/
theorem heartbeat_timeout_close_witness :
    (heartbeat { connectPending := true, pendingConnectTimeout := 10 } 30 0).unbindReasonCode
        = etimedout ∧
    (heartbeat { connectPending := true, pendingConnectTimeout := 10 } 30 0).closeNow = true ∧
    (heartbeat { connectPending := true, pendingConnectTimeout := 10 } 30 0).closeAfterWriting
        = ({ connectPending := true, pendingConnectTimeout := 10 } : Conn).closeAfterWriting :=
  (heartbeat_timeout_close { connectPending := true, pendingConnectTimeout := 10 } 30 0
    (by norm_num) (by norm_num) (by norm_num)).1 rfl (by norm_num)

/-- Concrete descriptor for the `GetNextHeartbeat` comparison: a pending
connect created at loop time 0 with a 10 µs pending-connect timeout and no
inactivity timeout. -/
def heartbeatSample : Conn := { connectPending := true, pendingConnectTimeout := 10 }

/-- Counterexample for C7: at loop time 4 (4 µs after creation) and real
time 100, the code returns real time plus the *full* pending-connect
timeout (110), not real time plus the remaining time until the connect
deadline (106) as the claim's "time left" formula would. -/
theorem getNextHeartbeat_counterexample :
    getNextHeartbeat heartbeatSample 100 ≠ getNextHeartbeatSpec heartbeatSample 4 100 := by
  decide

/-- C7 (amended): `GetNextHeartbeat` returns zero when the descriptor
should be deleted or no timeout applies, and otherwise the current real
time plus the minimum of the full pending-connect timeout (only while a
connect is pending) and the full inactivity timeout, a zero inactivity
timeout contributing no deadline. -/
theorem getNextHeartbeat_amended (s : Conn) (rt : Nat)
    (hpct : 0 < s.pendingConnectTimeout)
    (hr1 : s.pendingConnectTimeout + rt < 2 ^ 64)
    (hr2 : s.inactivityTimeout + rt < 2 ^ 64) :
    getNextHeartbeat s rt =
      if shouldDelete s = true then 0
      else if s.connectPending = true then
        rt + (if s.inactivityTimeout = 0 then s.pendingConnectTimeout
              else min s.pendingConnectTimeout s.inactivityTimeout)
      else if s.inactivityTimeout = 0 then 0
      else rt + s.inactivityTimeout := by
  by_cases hsd : shouldDelete s = true
  · simp [getNextHeartbeat, hsd]
  · rcases hp : s.connectPending with _ | _
    · by_cases hit : s.inactivityTimeout = 0
      · simp [getNextHeartbeat, hsd, hp, hit]
      · simp only [getNextHeartbeat, hsd, hp, hit]
        simp [u64add_eq_add _ _ hr2, Nat.add_comm]
        omega
    · by_cases hit : s.inactivityTimeout = 0
      · have hne : s.pendingConnectTimeout ≠ 0 := by omega
        simp only [getNextHeartbeat, hsd, hp, hit]
        simp [hne, u64add_eq_add _ _ hr1, Nat.add_comm]
      · by_cases hlt : s.pendingConnectTimeout < s.inactivityTimeout
        · have hne : s.pendingConnectTimeout ≠ 0 := by omega
          have hmin : min s.pendingConnectTimeout s.inactivityTimeout
              = s.pendingConnectTimeout := by omega
          simp only [getNextHeartbeat, hsd, hp, hit, hlt]
          simp [hne, hmin, u64add_eq_add _ _ hr1, Nat.add_comm]
        · have hmin : min s.pendingConnectTimeout s.inactivityTimeout
              = s.inactivityTimeout := by omega
          simp only [getNextHeartbeat, hsd, hp, hit, hlt]
          simp [hit, hlt, hmin, u64add_eq_add _ _ hr2, Nat.add_comm]

/-- Witness for C7's amended statement at the concrete sample descriptor
and real time 100. -/
theorem getNextHeartbeat_amended_witness :
    getNextHeartbeat heartbeatSample 100 =
      if shouldDelete heartbeatSample = true then 0
      else if heartbeatSample.connectPending = true then
        100 + (if heartbeatSample.inactivityTimeout = 0 then heartbeatSample.pendingConnectTimeout
              else min heartbeatSample.pendingConnectTimeout heartbeatSample.inactivityTimeout)
      else if heartbeatSample.inactivityTimeout = 0 then 0
      else 100 + heartbeatSample.inactivityTimeout :=
  getNextHeartbeat_amended heartbeatSample 100 (by decide) (by decide) (by decide)

/-- Concrete sink for the backpressure claims: threshold 2 bytes, upstream
source attached and initially unpaused. -/
def backpressureSample : ProxySink :=
  { conn := { }, maxOutboundBufSize := 2, hasProxiedFrom := true }

/-- Counterexample for C5: queue 3 bytes (the source is paused, 3 > 2),
then flush 1 byte; the queued bytes (2) have fallen back *to* the
threshold, but the source is still paused — the code resumes only strictly
below the threshold. -/
theorem backpressure_counterexample :
    ((sinkWriteOutboundData (sendOutboundData backpressureSample 3).2 1).conn.size
        ≤ (backpressureSample.maxOutboundBufSize : Int)) ∧
    (sinkWriteOutboundData (sendOutboundData backpressureSample 3).2 1).sourcePaused = true := by
  decide

/-- C5 (amended): with a source attached and a nonzero threshold `T`, a
send pauses the source exactly when the pre-queue outbound size plus the
incoming length exceeds `T` (an already-paused source just stays paused),
and a flush resumes it exactly when the new outbound size falls strictly
below `T` while the source is paused — so there is no pause transition from
a paused state and no resume of an unpaused source. -/
theorem backpressure_transitions (s : ProxySink) (len bw : Nat)
    (hT : s.maxOutboundBufSize ≠ 0) (hF : s.hasProxiedFrom = true) :
    ((sendOutboundData s len).2.sourcePaused
        = (s.sourcePaused || decide ((s.maxOutboundBufSize : Int) < s.conn.size + len))) ∧
    ((sinkWriteOutboundData s bw).sourcePaused
        = (s.sourcePaused &&
            decide ((s.maxOutboundBufSize : Int) ≤ (writeOutboundData s.conn bw).size))) ∧
    (s.sourcePaused = true → (sendOutboundData s len).2.sourcePaused = true) ∧
    (s.sourcePaused = false → (sinkWriteOutboundData s bw).sourcePaused = false) := by
  rcases hsp : s.sourcePaused <;>
    by_cases hlt : (s.maxOutboundBufSize : Int) < s.conn.size + len <;>
    by_cases hle : (writeOutboundData s.conn bw).size < (s.maxOutboundBufSize : Int) <;>
    simp [sendOutboundData, sinkWriteOutboundData, hF, hT, hsp, hlt, hle, not_lt] <;>
    omega

/-- Witness for C5's amended statement at the concrete sample sink. -/
theorem backpressure_transitions_witness :
    ((sendOutboundData backpressureSample 3).2.sourcePaused
        = (backpressureSample.sourcePaused ||
            decide ((backpressureSample.maxOutboundBufSize : Int)
              < backpressureSample.conn.size + 3))) ∧
    ((sinkWriteOutboundData backpressureSample 1).sourcePaused
        = (backpressureSample.sourcePaused &&
            decide ((backpressureSample.maxOutboundBufSize : Int)
              ≤ (writeOutboundData backpressureSample.conn 1).size))) ∧
    (backpressureSample.sourcePaused = true →
      (sendOutboundData backpressureSample 3).2.sourcePaused = true) ∧
    (backpressureSample.sourcePaused = false →
      (sinkWriteOutboundData backpressureSample 1).sourcePaused = false) :=
  backpressure_transitions backpressureSample 3 1 (by decide) rfl

/-- C10: an outbound send on a descriptor with a close already scheduled —
or, for a stream connection, with a zero requested length — returns 0 and
leaves the outbound page queue and the outbound byte count unchanged, for
both stream and datagram descriptors. -/
theorem send_refused_without_fault (c : ProxySink) (d : Datagram) (len : Nat) :
    (isCloseScheduled c.conn = true ∨ len = 0 →
      (sendOutboundData c len).1 = 0 ∧
      (sendOutboundData c len).2.conn.pages = c.conn.pages ∧
      (sendOutboundData c len).2.conn.size = c.conn.size) ∧
    (d.isCloseScheduled = true →
      (datagramSendOutboundData d len).1 = 0 ∧ (datagramSendOutboundData d len).2 = d) := by
  constructor
  · rintro (h | h)
    · simp [sendOutboundData, sendRawOutboundData, h]
    · rcases hcs : isCloseScheduled c.conn <;>
        simp [sendOutboundData, sendRawOutboundData, h, hcs]
  · intro h
    simp [datagramSendOutboundData, h]

/-- Witness for C10: a stream sink and a datagram descriptor, each with an
immediate close scheduled, refuse a 5-byte send. -/
theorem send_refused_without_fault_witness :
    ((sendOutboundData { conn := { closeNow := true } } 5).1 = 0 ∧
      (sendOutboundData { conn := { closeNow := true } } 5).2.conn.pages
        = ({ conn := { closeNow := true } } : ProxySink).conn.pages ∧
      (sendOutboundData { conn := { closeNow := true } } 5).2.conn.size
        = ({ conn := { closeNow := true } } : ProxySink).conn.size) ∧
    ((datagramSendOutboundData { closeNow := true } 5).1 = 0 ∧
      (datagramSendOutboundData { closeNow := true } 5).2 = { closeNow := true }) :=
  ⟨(send_refused_without_fault { conn := { closeNow := true } } { closeNow := true } 5).1
      (Or.inl rfl),
   (send_refused_without_fault { conn := { closeNow := true } } { closeNow := true } 5).2 rfl⟩

/-- C9: a received chunk of `r` bytes (`r` at most the buffer size minus
one, since the read asks for one byte less than the buffer) written into
the read buffer leaves the buffer its original size — the guard byte never
overruns it — with byte `r` set to 0 and the dispatched chunk equal to the
`r` received bytes. -/
theorem read_chunk_nul_guard (buf data : List Nat) (N : Nat)
    (hbuf : buf.length = N)
    (hN : N = connReadBufferSize ∨ N = datagramReadBufferSize)
    (hr : data.length ≤ N - 1) :
    (applyReadChunk buf data).length = N ∧
    (applyReadChunk buf data)[data.length]? = some 0 ∧
    (applyReadChunk buf data).take data.length = data := by
  have hN1 : 1 ≤ N := by
    rcases hN with h | h <;> simp [h, connReadBufferSize, datagramReadBufferSize]
  have hlt : data.length + 1 ≤ N := by omega
  refine ⟨?_, ?_, ?_⟩
  · simp only [applyReadChunk, List.length_append, List.length_cons, List.length_drop, hbuf]
    omega
  · unfold applyReadChunk
    rw [List.getElem?_append_right (le_refl data.length)]
    simp
  · unfold applyReadChunk
    rw [show data ++ 0 :: buf.drop (data.length + 1)
        = data ++ (0 :: buf.drop (data.length + 1)) from rfl]
    exact List.take_left data _

lemma runDispatch_detached (b p : Nat) (cs : List (List Nat)) :
    runDispatch ⟨false, b, p⟩ cs =
      (⟨false, b, p⟩, cs.map fun c => ⟨⟨false, b, p⟩, [], false, c⟩) := by
  induction cs with
  | nil => rfl
  | cons c cs ih => simp [runDispatch, genericInboundDispatch, ih]

lemma flatten_map_nil (cs : List (List Nat)) :
    (cs.map fun _ => ([] : List Nat)).flatten = [] := by
  induction cs <;> simp_all

lemma runDispatch_limited (cs : List (List Nat)) :
    ∀ L p : Nat, 0 < L →
      (((runDispatch ⟨true, L, p⟩ cs).2.map DispatchResult.forwarded).flatten
          = cs.flatten.take L) ∧
      ((runDispatch ⟨true, L, p⟩ cs).2.map (fun r => r.forwarded ++ r.readDispatched) = cs) ∧
      ((runDispatch ⟨true, L, p⟩ cs).2.map DispatchResult.completedFired
          = completionPattern L (cs.map List.length)) ∧
      ((runDispatch ⟨true, L, p⟩ cs).1.hasProxyTarget = decide (cs.flatten.length < L)) := by
  induction cs with
  | nil =>
      intro L p hL
      simp [runDispatch, completionPattern, hL]
  | cons c cs ih =>
      intro L p hL
      by_cases hcl : c.length < L
      · have hmin : min L c.length = c.length := by omega
        have hne : ¬(L - c.length = 0) := by omega
        have hstep : genericInboundDispatch ⟨true, L, p⟩ c =
            ⟨⟨true, L - c.length, p + c.length⟩, c, false, []⟩ := by
          simp [genericInboundDispatch, hL, hmin, hne]
        obtain ⟨ih1, ih2, ih3, ih4⟩ := ih (L - c.length) (p + c.length) (by omega)
        refine ⟨?_, ?_, ?_, ?_⟩
        · simp only [runDispatch, hstep, List.map_cons, List.flatten_cons, ih1]
          rw [List.take_append_eq_append_take,
            List.take_of_length_le (le_of_lt hcl)]
        · simp only [runDispatch, hstep, List.map_cons, ih2, List.append_nil]
        · simp only [runDispatch, hstep, List.map_cons, ih3, completionPattern]
          rw [if_neg (by omega)]
        · simp only [runDispatch, hstep, ih4]
          rw [decide_eq_decide]
          simp only [List.flatten_cons, List.length_append]
          omega
      · have hmin : min L c.length = L := by omega
        have hstep : genericInboundDispatch ⟨true, L, p⟩ c =
            ⟨⟨false, 0, p + L⟩, c.take L, true, c.drop L⟩ := by
          simp [genericInboundDispatch, hL, hmin]
        refine ⟨?_, ?_, ?_, ?_⟩
        · simp only [runDispatch, hstep, runDispatch_detached, List.map_cons,
            List.map_map, List.flatten_cons]
          rw [show ((fun r : DispatchResult => r.forwarded) ∘
              fun c => (⟨⟨false, 0, p + L⟩, [], false, c⟩ : DispatchResult))
              = fun _ => ([] : List Nat) from rfl]
          rw [flatten_map_nil, List.append_nil,
            List.take_append_of_le_length (by omega)]
        · simp only [runDispatch, hstep, runDispatch_detached, List.map_cons, List.map_map]
          rw [List.take_append_drop]
          rw [show ((fun r : DispatchResult => r.forwarded ++ r.readDispatched) ∘
              fun c => (⟨⟨false, 0, p + L⟩, [], false, c⟩ : DispatchResult))
              = fun c : List Nat => c from rfl]
          simp
        · simp only [runDispatch, hstep, runDispatch_detached, List.map_cons, List.map_map,
            completionPattern]
          rw [if_pos (by omega)]
          rfl
        · simp only [runDispatch, hstep, runDispatch_detached]
          simp
          omega

/-- C4: with a proxy attached under a nonzero byte budget `L`, across any
sequence of inbound chunks: the bytes forwarded to the proxy target are
exactly the first `L` bytes of the concatenated input; each chunk splits —
in order, with no byte dropped or duplicated — into its forwarded part
followed by its part handed to the ordinary connection-read callback; the
proxy-completed event fires exactly on the chunk whose bytes reach the
budget (and never if the input falls short); and the proxy is detached
exactly once the budget is consumed. -/
theorem proxy_byte_limit (L : Nat) (hL : 0 < L) (cs : List (List Nat)) :
    (((runDispatch ⟨true, L, 0⟩ cs).2.map DispatchResult.forwarded).flatten
        = cs.flatten.take L) ∧
    ((runDispatch ⟨true, L, 0⟩ cs).2.map (fun r => r.forwarded ++ r.readDispatched) = cs) ∧
    ((runDispatch ⟨true, L, 0⟩ cs).2.map DispatchResult.completedFired
        = completionPattern L (cs.map List.length)) ∧
    ((runDispatch ⟨true, L, 0⟩ cs).1.hasProxyTarget = decide (cs.flatten.length < L)) :=
  runDispatch_limited cs L 0 hL

/-- Witness for C4: budget 3 over the chunks `[1,2]`, `[3,4]` — bytes
`1,2,3` are forwarded, completion fires on the second chunk, and byte `4`
is re-dispatched as ordinary inbound data. -/
theorem proxy_byte_limit_witness :
    (((runDispatch ⟨true, 3, 0⟩ [[1, 2], [3, 4]]).2.map DispatchResult.forwarded).flatten
        = ([[1, 2], [3, 4]] : List (List Nat)).flatten.take 3) ∧
    ((runDispatch ⟨true, 3, 0⟩ [[1, 2], [3, 4]]).2.map
        (fun r => r.forwarded ++ r.readDispatched) = [[1, 2], [3, 4]]) ∧
    ((runDispatch ⟨true, 3, 0⟩ [[1, 2], [3, 4]]).2.map DispatchResult.completedFired
        = completionPattern 3 (([[1, 2], [3, 4]] : List (List Nat)).map List.length)) ∧
    ((runDispatch ⟨true, 3, 0⟩ [[1, 2], [3, 4]]).1.hasProxyTarget
        = decide (([[1, 2], [3, 4]] : List (List Nat)).flatten.length < 3)) :=
  proxy_byte_limit 3 (by decide) [[1, 2], [3, 4]]

/-- Witness for C9: a 3-byte chunk into the 16385-byte connection read
buffer. -/
theorem read_chunk_nul_guard_witness :
    (applyReadChunk (List.replicate connReadBufferSize 7) [1, 2, 3]).length
        = connReadBufferSize ∧
    (applyReadChunk (List.replicate connReadBufferSize 7) [1, 2, 3])[(3 : Nat)]? = some 0 ∧
    (applyReadChunk (List.replicate connReadBufferSize 7) [1, 2, 3]).take 3 = [1, 2, 3] :=
  read_chunk_nul_guard (List.replicate connReadBufferSize 7) [1, 2, 3] connReadBufferSize
    (by simp) (Or.inl rfl) (by decide)

end EventMachine
